import Mathlib

/-!
Verification of the image-gallery Azure function app (src/function_app.py)
against its specification.  The Python handlers `upload_image`,
`list_images` and `resize_image` are shallowly embedded as pure Lean
functions over an explicit object-store state.  External collaborators
(the PIL raster kernels, the JPEG codec, the blob SDK URL builder) are
abstracted as function parameters; everything the claims depend on
(dimension arithmetic, canvas composition, validation, filtering,
association and sorting logic) is translated directly from the source.
-/

/-- RGB pixel value, components in 0..255. -/
structure Pixel where
  r : Nat
  g : Nat
  b : Nat
deriving DecidableEq, Repr

/-- The white background colour (255, 255, 255) used for the thumbnail canvas. -/
def white : Pixel := ⟨255, 255, 255⟩

/-- PIL colour modes as far as `resize_image` distinguishes them:
full colour, full colour with alpha, and everything else. -/
inductive PILMode where
  | RGB
  | RGBA
  | other
deriving DecidableEq, Repr

/-- In-memory bitmap, modelling a PIL `Image`: dimensions, colour mode,
a pixel function and an alpha function (the alpha channel is only
meaningful when `mode = RGBA`; PIL stores 255 elsewhere). -/
structure PILImage where
  width : Nat
  height : Nat
  mode : PILMode
  px : Nat → Nat → Pixel
  alpha : Nat → Nat → Nat

/-- External raster/codec kernels used by the handler but not implemented
by the repository: the Lanczos resampler (pixel and alpha planes), the
mode-conversion pixel transform of `Image.convert`, the alpha-blend of
`Image.paste` with a mask, the JPEG encoder of `Image.save`, and the
decoder of `Image.open`.  The claims under verification are independent
of the concrete values these produce, so the embedding is parametric in
them. -/
structure Raster where
  resamplePx : PILImage → Nat → Nat → Nat → Nat → Pixel
  resampleAlpha : PILImage → Nat → Nat → Nat → Nat → Nat
  convertPx : PILImage → Nat → Nat → Pixel
  blend : Pixel → Pixel → Nat → Pixel
  encodeJPEG : PILImage → List UInt8
  decode : List UInt8 → Option PILImage

/-- Size computation of PIL `Image.thumbnail` (Pillow ≥ 7.0,
`preserve_aspect_ratio`), branch `x / y >= aspect` (reached when
`height ≥ width`): the target width is
`round_aspect(256 * aspect, key = fun n => abs (aspect - n / 256))`,
i.e. whichever of `floor (256*W/H)` and `ceil (256*W/H)` minimises the
aspect-ratio error (floor on ties, clamped to at least 1).  The float
comparisons of the Python code are carried out here in exact integer
arithmetic over a common denominator. -/
def roundAspectW (W H : Nat) : Nat :=
  let t := 256 * W
  let f := t / H
  let c := (t + H - 1) / H
  let kf := ((t : Int) - f * H).natAbs
  let kc := ((t : Int) - c * H).natAbs
  max (if kf ≤ kc then f else c) 1

/-- Size computation of PIL `Image.thumbnail`, branch `x / y < aspect`
(reached when `width > height`): the target height is
`round_aspect(256 / aspect, key = fun n => if n = 0 then 0 else abs (aspect - 256 / n))`,
i.e. whichever of `floor (256*H/W)` and `ceil (256*H/W)` minimises the
aspect-ratio error (floor on ties, with `n = 0` keyed to 0, clamped to
at least 1).  Exact integer arithmetic replaces the float comparisons:
`abs (W/H - 256/f) ≤ abs (W/H - 256/c)` iff
`abs (W*f - 256*H) * c ≤ abs (W*c - 256*H) * f`. -/
def roundAspectH (W H : Nat) : Nat :=
  let t := 256 * H
  let f := t / W
  let c := (t + W - 1) / W
  if f = 0 then 1
  else
    let kf := ((W : Int) * f - 256 * H).natAbs * c
    let kc := ((W : Int) * c - 256 * H).natAbs * f
    max (if kf ≤ kc then f else c) 1

/-- Resulting dimensions of `img.thumbnail((256, 256), LANCZOS)` for an
input of dimensions `W × H`: a no-op when the image already fits in the
256 × 256 box, otherwise the larger dimension is scaled to 256 and the
other dimension is rounded by `round_aspect` (PIL `Image.thumbnail`). -/
def pilThumbnailSize (W H : Nat) : Nat × Nat :=
  if W ≤ 256 ∧ H ≤ 256 then (W, H)
  else if W ≤ H then (roundAspectW W H, 256)
  else (256, roundAspectH W H)

/-- Mode normalisation step of `resize_image`:
`if img.mode not in ('RGB', 'RGBA'): img = img.convert('RGB')`.
`Image.convert` preserves the dimensions; the converted pixel values come
from the abstract `convertPx` kernel. -/
def pilConvertRGB (R : Raster) (img : PILImage) : PILImage :=
  if img.mode = PILMode.RGB ∨ img.mode = PILMode.RGBA then img
  else ⟨img.width, img.height, PILMode.RGB, R.convertPx img, fun _ _ => 255⟩

/-- In-place `img.thumbnail((256, 256), LANCZOS)`: dimensions given by
`pilThumbnailSize`; when they differ from the current ones the pixels are
produced by the abstract resampler, otherwise the image is unchanged. -/
def pilThumbnailOp (R : Raster) (img : PILImage) : PILImage :=
  let sz := pilThumbnailSize img.width img.height
  if sz.1 = img.width ∧ sz.2 = img.height then img
  else ⟨sz.1, sz.2, img.mode, R.resamplePx img sz.1 sz.2, R.resampleAlpha img sz.1 sz.2⟩

/-- The 256 × 256 white canvas, `Image.new('RGB', (256, 256), (255, 255, 255))`. -/
def canvasWhite : PILImage := ⟨256, 256, PILMode.RGB, fun _ _ => white, fun _ _ => 255⟩

/-- Plain `base.paste(img, (x, y))`: the pasted region is overwritten,
every pixel outside it keeps the base value. -/
def pilPaste (base img : PILImage) (x y : Nat) : PILImage :=
  ⟨base.width, base.height, base.mode,
    fun i j =>
      if x ≤ i ∧ i < x + img.width ∧ y ≤ j ∧ j < y + img.height then
        img.px (i - x) (j - y)
      else base.px i j,
    base.alpha⟩

/-- Masked `base.paste(img, (x, y), img)`: inside the pasted region the
pixel is the alpha-blend (abstract kernel) of the pasted pixel over the
base pixel; every pixel outside the region keeps the base value. -/
def pilPasteMask (blend : Pixel → Pixel → Nat → Pixel) (base img : PILImage) (x y : Nat) :
    PILImage :=
  ⟨base.width, base.height, base.mode,
    fun i j =>
      if x ≤ i ∧ i < x + img.width ∧ y ≤ j ∧ j < y + img.height then
        blend (img.px (i - x) (j - y)) (base.px i j) (img.alpha (i - x) (j - y))
      else base.px i j,
    base.alpha⟩

/-- The thumbnail composition pipeline of `resize_image` (src lines
266-285): normalise the mode, resize within the 256 × 256 box, allocate
a white canvas, compute the centering offsets `(256 - w) // 2` and
`(256 - h) // 2`, and paste (with the image as its own mask when it
carries an alpha channel). -/
def makeThumbnail (R : Raster) (img0 : PILImage) : PILImage :=
  let img := pilThumbnailOp R (pilConvertRGB R img0)
  let x := (256 - img.width) / 2
  let y := (256 - img.height) / 2
  if img.mode = PILMode.RGBA then pilPasteMask R.blend canvasWhite img x y
  else pilPaste canvasWhite img x y

/-- A stored blob: key, raw bytes, content type, reported byte size and
the store-assigned last-modified timestamp rendered by
`blob.last_modified.isoformat()` (absent when the store reports none). -/
structure Blob where
  name : String
  content : List UInt8
  contentType : String
  size : Nat
  lastModified : Option String
deriving DecidableEq, Repr

/-- State of the `images` container of the object store: whether the
container exists, and the blobs it holds. -/
structure Store where
  containerExists : Bool
  blobs : List Blob
deriving DecidableEq, Repr

/-- Python `s.startswith(p)`: `p` is a code-point prefix of `s`. -/
def pyStartsWith (s p : String) : Bool := p.data.isPrefixOf s.data

/-- Blob write with `overwrite=True`: replace the blob of the same name
if present, append it otherwise. -/
def Store.put (s : Store) (b : Blob) : Store :=
  if s.blobs.any (fun o => o.name = b.name) then
    ⟨s.containerExists, s.blobs.map (fun o => if o.name = b.name then b else o)⟩
  else ⟨s.containerExists, s.blobs ++ [b]⟩

/-- The `ensure_container_exists` helper (src lines 18-26): create the
container when absent; creation failures are logged and swallowed, so the
call never fails. -/
def ensure_container_exists (s : Store) : Store := ⟨true, s.blobs⟩

/-- The `get_blob_properties` metadata lookup: succeeds exactly when a
blob of that name is stored, raises a resource-not-found error
otherwise. -/
def get_blob_properties (s : Store) (name : String) : Except String Unit :=
  if s.blobs.any (fun b => b.name = name) then Except.ok () else Except.error "BlobNotFound"

/-- Boolean success test for an `Except` result. -/
def exceptIsOk : Except String Unit → Bool
  | Except.ok _ => true
  | Except.error _ => false

/-- Body of the `try` block of `resize_image` after the re-entrancy
guard (src lines 260-308): decode the bytes (`Image.open` raises on
undecodable input, modelled as `decode = none` turned into an error),
build the composited thumbnail, JPEG-encode it and write it with
overwrite semantics under `thumbnails/{name}` with content type
`image/jpeg`. -/
def resize_image_body (R : Raster) (name : String) (data : List UInt8) (s : Store) :
    Except String Store :=
  match R.decode data with
  | none => Except.error "cannot identify image file"
  | some img =>
      let out := R.encodeJPEG (makeThumbnail R img)
      Except.ok (s.put ⟨"thumbnails/" ++ name, out, "image/jpeg", out.length, none⟩)

/-- The blob-triggered handler `resize_image` (src lines 237-316): keys
already under `thumbnails/` are ignored; every internal error (decode
failure, storage failure) is caught by the enclosing `except` block,
logged, and swallowed, leaving the store unchanged.  The handler
therefore always returns a store and never propagates an exception. -/
def resize_image (R : Raster) (name : String) (data : List UInt8) (s : Store) : Store :=
  if pyStartsWith name "thumbnails/" then s
  else
    match resize_image_body R name data s with
    | Except.ok s2 => s2
    | Except.error _ => s

/-- One element of the `images` array assembled by `list_images`
(src lines 199-205). -/
structure ImageInfo where
  name : String
  originalUrl : String
  thumbnailUrl : String
  size : Nat
  lastModified : Option String
deriving DecidableEq, Repr

/-- Sort key of `list_images` (src line 210):
`x['lastModified'] if x['lastModified'] else ''` — the timestamp string,
or the empty string when it is absent.  (Python also maps a present but
empty string to `''`, which is the string itself, so the falsy-string
case needs no separate branch.) -/
def sortKey (x : ImageInfo) : String :=
  match x.lastModified with
  | some t => t
  | none => ""

/-- Comparison used to model `images.sort(key=..., reverse=True)`:
`a` may precede `b` when the key of `b` is at most the key of `a`
(descending order). -/
def imageGE (a b : ImageInfo) : Prop := sortKey b ≤ sortKey a

instance : DecidableRel imageGE :=
  fun a b => inferInstanceAs (Decidable (sortKey b ≤ sortKey a))

instance : IsTotal ImageInfo imageGE :=
  ⟨fun a b => (le_total (sortKey b) (sortKey a)).elim Or.inl Or.inr⟩

instance : IsTrans ImageInfo imageGE :=
  ⟨fun _ _ _ hab hbc => le_trans hbc hab⟩

/-- Entry construction of the `list_images` loop body (src lines
177-205): build the original's URL, attempt the metadata lookup of
`thumbnails/{name}`, and on any failure of that lookup fall back to the
original's own URL for the thumbnail field.  `url` abstracts the SDK's
`blob_client.url` for a blob name of the `images` container. -/
def mkImageInfo (url : String → String) (s : Store) (b : Blob) : ImageInfo :=
  let originalUrl := url b.name
  let thumbnail_name := "thumbnails/" ++ b.name
  let thumbnailUrl :=
    match get_blob_properties s thumbnail_name with
    | Except.ok _ => url thumbnail_name
    | Except.error _ => originalUrl
  ⟨b.name, originalUrl, thumbnailUrl, b.size, b.lastModified⟩

/-- The unsorted `images` list of `list_images`: every enumerated blob
whose key starts with `thumbnails/` is skipped (src lines 170-175), the
rest are turned into entries. -/
def list_images_entries (url : String → String) (s : Store) : List ImageInfo :=
  (s.blobs.filter (fun b => !pyStartsWith b.name "thumbnails/")).map (mkImageInfo url s)

/-- The sorted `images` array (src line 210).  Python's `list.sort` is a
stable sort; `List.insertionSort` with the non-strict descending
comparison is stable in the same sense (ties keep their original
relative order), so it computes the identical list. -/
def list_images_array (url : String → String) (s : Store) : List ImageInfo :=
  List.insertionSort imageGE (list_images_entries url s)

/-- HTTP response of `list_images`: status code, images array, count. -/
structure ListResponse where
  status : Nat
  images : List ImageInfo
  count : Nat
deriving DecidableEq, Repr

/-- The `list_images` handler (src lines 140-224): a missing container
yields an empty 200 response; otherwise the filtered, associated and
sorted array is returned with its length.  (The body serialisation of
the success path, src line 221, is the same malformed keyword argument
as in `upload_image`; the response is modelled with the evident intended
shape.) -/
def list_images (url : String → String) (s : Store) : ListResponse :=
  if s.containerExists then
    ⟨200, list_images_array url s, (list_images_array url s).length⟩
  else ⟨200, [], 0⟩

/-- The file payload extracted from the multipart request:
`file_data.filename` and the bytes of `file_data.stream.read()`. -/
structure UploadFile where
  filename : String
  content : List UInt8
deriving DecidableEq, Repr

/-- Success payload of `upload_image` (src lines 114-122). -/
structure UploadPayload where
  success : Bool
  message : String
  filename : String
  original_filename : String
  url : String
  size : Nat
  timestamp : String
deriving DecidableEq, Repr

/-- HTTP response of `upload_image`: status code, the success payload
(on 200), and the error message (on 400/500). -/
structure UploadResponse where
  status : Nat
  payload : Option UploadPayload
  error : Option String
deriving DecidableEq, Repr

/-- The allow-list of image extensions (src line 57). -/
def allowed_extensions : List String :=
  [".jpg", ".jpeg", ".png", ".gif", ".webp", ".bmp"]

/-- The extension-to-content-type map (src lines 81-88), as the
association list the dict literal denotes. -/
def content_type_mapping : List (String × String) :=
  [(".jpg", "image/jpeg"), (".jpeg", "image/jpeg"), (".png", "image/png"),
   (".gif", "image/gif"), (".webp", "image/webp"), (".bmp", "image/bmp")]

/-- Index of the last occurrence of `c` in `cs`, `-1` when absent
(Python `str.rfind`). -/
def rfindIdx (cs : List Char) (c : Char) : Int :=
  match cs.reverse.findIdx? (fun x => x = c) with
  | none => -1
  | some i => (cs.length : Int) - 1 - i

/-- Extension part of `os.path.splitext(p)` on POSIX (cpython
`genericpath._splitext` with separator `/`): the suffix from the last
dot, provided that dot comes after the last slash and the base name is
not entirely made of leading dots. -/
def splitextExtension (p : String) : String :=
  let cs := p.data
  let sepIndex := rfindIdx cs '/'
  let dotIndex := rfindIdx cs '.'
  if sepIndex < dotIndex then
    if (List.range cs.length).any
        (fun k => decide (sepIndex + 1 ≤ (k : Int)) && decide ((k : Int) < dotIndex)
          && (cs.getD k ' ' != '.')) then
      String.mk (cs.drop dotIndex.toNat)
    else ""
  else ""

/-- Python `str.lower()` restricted to ASCII (`Char.toLower`).  The
deviation on non-ASCII letters is irrelevant here: no non-ASCII string
lowercases to a member of the all-ASCII extension allow-list, so both
sides classify such extensions as disallowed. -/
def lowerAscii (s : String) : String := String.mk (s.data.map Char.toLower)

/-- Wall-clock value consumed by `datetime.now()`. -/
structure DateTimeVal where
  year : Nat
  month : Nat
  day : Nat
  hour : Nat
  minute : Nat
  second : Nat
deriving DecidableEq, Repr

/-- Decimal digit character of `n mod 10`. -/
def digitOf (n : Nat) : Char := Nat.digitChar (n % 10)

/-- Two-digit zero-padded rendering, faithful to `strftime` fields
`%m %d %H %M %S` for values below 100 (all calendar fields are). -/
def pad2chars (n : Nat) : List Char := [digitOf (n / 10), digitOf n]

/-- Four-digit rendering of `%Y`, faithful for years 1000-9999 (glibc
prints smaller years unpadded; `datetime` years are at most 9999). -/
def pad4chars (n : Nat) : List Char :=
  [digitOf (n / 1000), digitOf (n / 100), digitOf (n / 10), digitOf n]

/-- The timestamp `datetime.now().strftime('%Y%m%d_%H%M%S')`
(src line 77). -/
def strftime_Ymd_HMS (d : DateTimeVal) : String :=
  String.mk (pad4chars d.year ++ pad2chars d.month ++ pad2chars d.day ++ ['_']
    ++ pad2chars d.hour ++ pad2chars d.minute ++ pad2chars d.second)

/-- Python `s[:8]` on a string: the first eight code points. -/
def strTake8 (s : String) : String := String.mk (s.data.take 8)

/-- The generated storage key `f"{timestamp}_{unique_id}{file_extension}"`
(src lines 76-78), where `uuid` stands for `str(uuid.uuid4())`. -/
def safe_filename_of (now : DateTimeVal) (uuid ext : String) : String :=
  strftime_Ymd_HMS now ++ "_" ++ strTake8 uuid ++ ext

/-- The `upload_image` handler (src lines 29-136).  `url` abstracts the
SDK's `blob_client.url`; `now` and `uuid` are the values produced by
`datetime.now()` and `str(uuid.uuid4())` during the request.  Validation:
missing file, extension outside the allow-list, or more than
10 * 1024 * 1024 bytes each yield a 400 with no storage interaction.
Otherwise the container is ensured, the object is written with overwrite
semantics and the mapped content type, and the success payload is
returned.  The success return statement in the source (line 125,
`func.HttpResponse.mimetype="application/json"`) is a malformed keyword
argument; it is modelled here with its evident intended shape (a 200
JSON response), which is settled separately under the corresponding
claim. -/
def upload_image (url : String → String) (now : DateTimeVal) (uuid : String)
    (req : Option UploadFile) (s : Store) : UploadResponse × Store :=
  match req with
  | none => (⟨400, none, some "Aucun fichier fourni"⟩, s)
  | some file_data =>
      let file_extension := lowerAscii (splitextExtension file_data.filename)
      if file_extension ∉ allowed_extensions then
        (⟨400, none,
          some "Type de fichier non autorisé. Formats acceptés: JPG, PNG, GIF, WEBP, BMP"⟩, s)
      else if 10 * 1024 * 1024 < file_data.content.length then
        (⟨400, none, some "Fichier trop volumineux. Taille maximale: 10MB"⟩, s)
      else
        let timestamp := strftime_Ymd_HMS now
        let safe_filename := safe_filename_of now uuid file_extension
        let content_type :=
          (content_type_mapping.lookup file_extension).getD "application/octet-stream"
        let s1 := ensure_container_exists s
        let s2 := s1.put ⟨safe_filename, file_data.content, content_type,
          file_data.content.length, none⟩
        (⟨200, some ⟨true, "Fichier téléversé avec succès", safe_filename,
          file_data.filename, url safe_filename, file_data.content.length, timestamp⟩,
          none⟩, s2)

/-- Hex-digit test for the characters of `str(uuid.uuid4())` (lowercase
hexadecimal). -/
def isHexLower (c : Char) : Bool := c.isDigit || ('a' ≤ c && c ≤ 'f')

/-- Decidable match of the generated-filename pattern
`{8digitDate}_{6digitTime}_{8charHex}{ext}`. -/
def matchesPattern (s ext : String) : Bool :=
  let cs := s.data
  decide (cs.length = 24 + ext.data.length) &&
  (cs.take 8).all Char.isDigit &&
  decide ((cs.drop 8).take 1 = ['_']) &&
  ((cs.drop 9).take 6).all Char.isDigit &&
  decide ((cs.drop 15).take 1 = ['_']) &&
  ((cs.drop 16).take 8).all isHexLower &&
  decide (cs.drop 24 = ext.data)

lemma pilConvertRGB_width (R : Raster) (img : PILImage) :
    (pilConvertRGB R img).width = img.width := by
  unfold pilConvertRGB; split <;> rfl

lemma pilConvertRGB_height (R : Raster) (img : PILImage) :
    (pilConvertRGB R img).height = img.height := by
  unfold pilConvertRGB; split <;> rfl

lemma pilThumbnailOp_width (R : Raster) (img : PILImage) :
    (pilThumbnailOp R img).width = (pilThumbnailSize img.width img.height).1 := by
  simp only [pilThumbnailOp]
  split
  next h => exact h.1.symm
  next => rfl

lemma pilThumbnailOp_height (R : Raster) (img : PILImage) :
    (pilThumbnailOp R img).height = (pilThumbnailSize img.width img.height).2 := by
  simp only [pilThumbnailOp]
  split
  next h => exact h.2.symm
  next => rfl

lemma thumb_content_width (R : Raster) (img0 : PILImage) :
    (pilThumbnailOp R (pilConvertRGB R img0)).width
      = (pilThumbnailSize img0.width img0.height).1 := by
  rw [pilThumbnailOp_width, pilConvertRGB_width, pilConvertRGB_height]

lemma thumb_content_height (R : Raster) (img0 : PILImage) :
    (pilThumbnailOp R (pilConvertRGB R img0)).height
      = (pilThumbnailSize img0.width img0.height).2 := by
  rw [pilThumbnailOp_height, pilConvertRGB_width, pilConvertRGB_height]

/-- The composited region of the thumbnail canvas: the rectangle of the
resized content dimensions placed at the centering offsets
`((256 - w) // 2, (256 - h) // 2)` computed by `resize_image`. -/
def thumbRegion (W H i j : Nat) : Prop :=
  let cw := (pilThumbnailSize W H).1
  let ch := (pilThumbnailSize W H).2
  (256 - cw) / 2 ≤ i ∧ i < (256 - cw) / 2 + cw ∧
  (256 - ch) / 2 ≤ j ∧ j < (256 - ch) / 2 + ch

lemma makeThumbnail_width (R : Raster) (img0 : PILImage) :
    (makeThumbnail R img0).width = 256 := by
  simp only [makeThumbnail]
  split <;> rfl

lemma makeThumbnail_height (R : Raster) (img0 : PILImage) :
    (makeThumbnail R img0).height = 256 := by
  simp only [makeThumbnail]
  split <;> rfl

lemma makeThumbnail_px_outside (R : Raster) (img0 : PILImage) (i j : Nat)
    (h : ¬ thumbRegion img0.width img0.height i j) :
    (makeThumbnail R img0).px i j = white := by
  have hw := thumb_content_width R img0
  have hh := thumb_content_height R img0
  simp only [thumbRegion] at h
  simp only [makeThumbnail]
  split
  · simp only [pilPasteMask]
    rw [hw, hh, if_neg h]
    rfl
  · simp only [pilPaste]
    rw [hw, hh, if_neg h]
    rfl

lemma roundAspectH_spec (W H : Nat) (hW : 1 ≤ W) (hH : 1 ≤ H) :
    (roundAspectH W H = 256 * H / W ∨ roundAspectH W H = (256 * H + W - 1) / W) ∧
    1 ≤ roundAspectH W H := by
  simp only [roundAspectH]
  by_cases hf : 256 * H / W = 0
  · have hlt : 256 * H < W := (Nat.div_eq_zero_iff (by omega)).mp hf
    have hc : (256 * H + W - 1) / W = 1 := Nat.div_eq_of_lt_le (by omega) (by omega)
    rw [if_pos hf]
    exact ⟨Or.inr hc.symm, le_refl 1⟩
  · have hf1 : 1 ≤ 256 * H / W := Nat.one_le_iff_ne_zero.mpr hf
    have hcf : 256 * H / W ≤ (256 * H + W - 1) / W := Nat.div_le_div_right (by omega)
    rw [if_neg hf]
    split
    · rw [Nat.max_eq_left hf1]
      exact ⟨Or.inl rfl, hf1⟩
    · rw [Nat.max_eq_left (le_trans hf1 hcf)]
      exact ⟨Or.inr rfl, le_trans hf1 hcf⟩

lemma pilThumbnailSize_landscape (W H : Nat) (h256 : 256 < W) (hHW : H ≤ W) (hH : 1 ≤ H) :
    (pilThumbnailSize W H).1 = 256 ∧
    ((pilThumbnailSize W H).2 = 256 * H / W ∨
      (pilThumbnailSize W H).2 = (256 * H + W - 1) / W) ∧
    1 ≤ (pilThumbnailSize W H).2 := by
  rcases eq_or_lt_of_le hHW with heq | hlt
  · subst heq
    have hnot : ¬ (H ≤ 256 ∧ H ≤ 256) := by omega
    have hH0 : 0 < H := by omega
    have hf : 256 * H / H = 256 := Nat.mul_div_cancel 256 hH0
    have hc : (256 * H + H - 1) / H = 256 := Nat.div_eq_of_lt_le (by omega) (by omega)
    have hrw : roundAspectW H H = 256 := by
      simp only [roundAspectW, hf, hc]
      simp
    have hsz : pilThumbnailSize H H = (256, 256) := by
      simp only [pilThumbnailSize, if_neg hnot, if_pos (le_refl H), hrw]
    rw [hsz]
    exact ⟨rfl, Or.inl hf.symm, by norm_num⟩
  · have hnot : ¬ (W ≤ 256 ∧ H ≤ 256) := by omega
    have hnot2 : ¬ (W ≤ H) := by omega
    have hsz : pilThumbnailSize W H = (256, roundAspectH W H) := by
      simp only [pilThumbnailSize, if_neg hnot, if_neg hnot2]
    rw [hsz]
    exact ⟨rfl, (roundAspectH_spec W H (by omega) hH).1, (roundAspectH_spec W H (by omega) hH).2⟩

/-- C1 (amended).  For every decodable input image of dimensions W × H
the thumbnail produced by the generator is exactly 256 × 256 pixels and
every pixel outside the composited region equals white (255, 255, 255);
in the claim's W ≥ H case (with H ≥ 1, as for every decoded bitmap),
when W > 256 the resized content has width exactly 256 and height equal
to the floor or the ceiling of 256·H/W (PIL picks whichever better
preserves the aspect ratio, never below 1 — not always round(256·H/W),
see the counterexample), and when W ≤ 256 the resize step keeps the
original dimensions. -/
theorem thumbnail_canvas_spec (R : Raster) (img0 : PILImage) :
    (makeThumbnail R img0).width = 256 ∧
    (makeThumbnail R img0).height = 256 ∧
    (∀ i j, ¬ thumbRegion img0.width img0.height i j →
      (makeThumbnail R img0).px i j = white) ∧
    (1 ≤ img0.height → img0.height ≤ img0.width → 256 < img0.width →
      (pilThumbnailSize img0.width img0.height).1 = 256 ∧
      ((pilThumbnailSize img0.width img0.height).2 = 256 * img0.height / img0.width ∨
        (pilThumbnailSize img0.width img0.height).2
          = (256 * img0.height + img0.width - 1) / img0.width) ∧
      1 ≤ (pilThumbnailSize img0.width img0.height).2) ∧
    (img0.height ≤ img0.width → img0.width ≤ 256 →
      pilThumbnailSize img0.width img0.height = (img0.width, img0.height)) :=
  ⟨makeThumbnail_width R img0, makeThumbnail_height R img0,
    fun i j h => makeThumbnail_px_outside R img0 i j h,
    fun hH hWH h256 => pilThumbnailSize_landscape img0.width img0.height h256 hWH hH,
    fun hWH hle => by
      have h2 : img0.height ≤ 256 := le_trans hWH hle
      unfold pilThumbnailSize
      rw [if_pos ⟨hle, h2⟩]⟩

/-- Ordinary rounding of the rational a / b to the nearest integer,
halves rounded up; at the value 1.4 used in the counterexample every
rounding convention agrees. -/
def roundHalfUp (a b : Nat) : Nat := (2 * a + b) / (2 * b)

/-- A concrete instantiation of the abstract raster kernels, for
evaluating the pipeline at specific inputs. -/
def raster0 : Raster :=
  ⟨fun _ _ _ _ _ => white, fun _ _ _ _ _ => 255, fun _ _ _ => white,
   fun p _ _ => p, fun _ => [], fun _ => none⟩

/-- C1 counterexample: for a 2560 × 14 input (so W ≥ H), the resize step
produces content height 2, while round(H·256/W) = round(1.4) = 1; the
claimed height formula fails on this input. -/
theorem thumbnail_round_counterexample :
    (pilThumbnailOp raster0
        ⟨2560, 14, PILMode.RGB, fun _ _ => white, fun _ _ => 255⟩).height = 2 ∧
    roundHalfUp (14 * 256) 2560 = 1 ∧
    ¬ ((pilThumbnailOp raster0
        ⟨2560, 14, PILMode.RGB, fun _ _ => white, fun _ _ => 255⟩).height
          = roundHalfUp (14 * 256) 2560) := by
  decide

/-- Witness: the amended thumbnail claim applied to a concrete 300 × 200
full-colour input, also discharging the W ≥ H dimension clause there. -/
theorem thumbnail_canvas_spec_witness :
    (makeThumbnail raster0
        ⟨300, 200, PILMode.RGB, fun _ _ => white, fun _ _ => 255⟩).width = 256 ∧
    (makeThumbnail raster0
        ⟨300, 200, PILMode.RGB, fun _ _ => white, fun _ _ => 255⟩).height = 256 ∧
    (pilThumbnailSize 300 200).1 = 256 :=
  ⟨(thumbnail_canvas_spec raster0
      ⟨300, 200, PILMode.RGB, fun _ _ => white, fun _ _ => 255⟩).1,
   (thumbnail_canvas_spec raster0
      ⟨300, 200, PILMode.RGB, fun _ _ => white, fun _ _ => 255⟩).2.1,
   ((thumbnail_canvas_spec raster0
      ⟨300, 200, PILMode.RGB, fun _ _ => white, fun _ _ => 255⟩).2.2.2.1
      (by decide) (by decide) (by decide)).1⟩

/-- C2.  An input smaller than 256 in both dimensions is not upscaled:
the resize step keeps its dimensions, and the undersized bitmap is
centered on the 256 × 256 white canvas at offsets x = (256 − W) // 2,
y = (256 − H) // 2 — inside the centered box the canvas carries the
original bitmap (stated for full-colour inputs, where neither mode
conversion nor alpha masking applies), outside it the canvas stays
white. -/
theorem small_image_not_upscaled (R : Raster) (img0 : PILImage)
    (hW : img0.width < 256) (hH : img0.height < 256) :
    pilThumbnailSize img0.width img0.height = (img0.width, img0.height) ∧
    (img0.mode = PILMode.RGB →
      ∀ a b, a < img0.width → b < img0.height →
        (makeThumbnail R img0).px ((256 - img0.width) / 2 + a)
            ((256 - img0.height) / 2 + b) = img0.px a b) ∧
    (∀ i j, ¬ thumbRegion img0.width img0.height i j →
      (makeThumbnail R img0).px i j = white) := by
  have hsz : pilThumbnailSize img0.width img0.height = (img0.width, img0.height) := by
    unfold pilThumbnailSize
    rw [if_pos ⟨le_of_lt hW, le_of_lt hH⟩]
  refine ⟨hsz, ?_, fun i j h => makeThumbnail_px_outside R img0 i j h⟩
  intro hmode a b ha hb
  have hconv : pilConvertRGB R img0 = img0 := by
    unfold pilConvertRGB
    rw [if_pos (Or.inl hmode)]
  have hop : pilThumbnailOp R (pilConvertRGB R img0) = img0 := by
    rw [hconv]
    simp [pilThumbnailOp, hsz]
  simp only [makeThumbnail, hop, hmode]
  rw [if_neg (by simp)]
  simp only [pilPaste]
  rw [if_pos ⟨Nat.le_add_right _ _, by omega, Nat.le_add_right _ _, by omega⟩]
  rw [Nat.add_sub_cancel_left, Nat.add_sub_cancel_left]

/-- Witness: the small-image claim applied to a concrete 100 × 50
full-colour input; the resize is a no-op and the pixel at the centering
offset (78, 103) is the original pixel (0, 0). -/
theorem small_image_not_upscaled_witness :
    pilThumbnailSize 100 50 = (100, 50) ∧
    (makeThumbnail raster0
        ⟨100, 50, PILMode.RGB, fun _ _ => white, fun _ _ => 255⟩).px 78 103 = white := by
  have h := small_image_not_upscaled raster0
    ⟨100, 50, PILMode.RGB, fun _ _ => white, fun _ _ => 255⟩ (by decide) (by decide)
  refine ⟨h.1, ?_⟩
  have h2 := h.2.1 rfl 0 0 (by decide) (by decide)
  simpa using h2

/-- C8.  A trigger whose key already carries the `thumbnails/` prefix is
ignored by the re-entrancy guard: the handler returns before reading the
blob and performs no storage write, so the store is unchanged and
re-triggering on such a key is an idempotent no-op. -/
theorem resize_image_reentrancy_guard (R : Raster) (name : String) (data : List UInt8)
    (s : Store) (h : pyStartsWith name "thumbnails/" = true) :
    resize_image R name data s = s := by
  unfold resize_image
  rw [if_pos h]

/-- Witness: the guard claim applied to the key `thumbnails/a.jpg`. -/
theorem resize_image_reentrancy_guard_witness :
    resize_image raster0 "thumbnails/a.jpg" [] ⟨true, []⟩ = ⟨true, []⟩ :=
  resize_image_reentrancy_guard raster0 "thumbnails/a.jpg" [] ⟨true, []⟩ (by decide)

/-- C9.  Undecodable bytes (`Image.open` fails, e.g. on zero-byte input)
make the body raise a decode error, which the handler's catch-all
swallows: no thumbnail is written, the store is unchanged, and — the
handler being a total function into `Store` — no exception escapes it. -/
theorem resize_image_undecodable_no_write (R : Raster) (name : String) (data : List UInt8)
    (s : Store) (h : R.decode data = none) :
    resize_image R name data s = s ∧
    resize_image_body R name data s = Except.error "cannot identify image file" := by
  have hbody : resize_image_body R name data s = Except.error "cannot identify image file" := by
    unfold resize_image_body
    rw [h]
  refine ⟨?_, hbody⟩
  unfold resize_image
  split
  · rfl
  · rw [hbody]

/-- Witness: the undecodable-input claim applied to zero-byte input
under a decoder that rejects it. -/
theorem resize_image_undecodable_no_write_witness :
    resize_image raster0 "a.jpg" [] ⟨true, []⟩ = ⟨true, []⟩ :=
  (resize_image_undecodable_no_write raster0 "a.jpg" [] ⟨true, []⟩ rfl).1

/-- C10.  Every extension that passes the allow-list check is a key of
the content-type map, the resolved value is one of the image MIME types,
and the `application/octet-stream` default of the `.get` lookup is never
the result for an allowed extension. -/
theorem content_type_total_on_allowlist (ext : String) (h : ext ∈ allowed_extensions) :
    (content_type_mapping.lookup ext).isSome = true ∧
    ((content_type_mapping.lookup ext).getD "application/octet-stream")
      ∈ ["image/jpeg", "image/png", "image/gif", "image/webp", "image/bmp"] ∧
    ((content_type_mapping.lookup ext).getD "application/octet-stream")
      ≠ "application/octet-stream" := by
  fin_cases h <;> decide

/-- Witness: the content-type claim applied to the extension `.png`. -/
theorem content_type_total_on_allowlist_witness :
    ((content_type_mapping.lookup ".png").getD "application/octet-stream") = "image/png" := by
  have h := content_type_total_on_allowlist ".png" (by decide)
  revert h
  decide

/-- C4.  The upload handler answers 400 exactly when the request has no
file field, or the lowercased extension is outside the allow-list, or
the content exceeds 10 * 1024 * 1024 bytes (so exactly 10 MiB passes and
10 MiB + 1 is rejected); and every 400 answer leaves the store
untouched. -/
theorem upload_image_400_iff (url : String → String) (now : DateTimeVal) (uuid : String)
    (req : Option UploadFile) (s : Store) :
    ((upload_image url now uuid req s).1.status = 400 ↔
      req.elim True (fun f =>
        lowerAscii (splitextExtension f.filename) ∉ allowed_extensions ∨
        10 * 1024 * 1024 < f.content.length)) ∧
    ((upload_image url now uuid req s).1.status = 400 →
      (upload_image url now uuid req s).2 = s) := by
  match req with
  | none => simp [upload_image]
  | some f =>
      by_cases hext : lowerAscii (splitextExtension f.filename) ∈ allowed_extensions
      · by_cases hsize : 10 * 1024 * 1024 < f.content.length
        · simp [upload_image, hext, hsize]
        · simp [upload_image, hext, hsize]
      · simp [upload_image, hext]

/-- Witness: a 10 MiB + 1 byte `.jpg` upload is rejected with 400 and
the store is unchanged, while the same file at exactly 10 MiB is not
answered with 400. -/
theorem upload_image_400_iff_witness :
    (upload_image id ⟨2026, 10, 12, 0, 0, 0⟩ "abcdef12"
      (some ⟨"a.jpg", List.replicate (10 * 1024 * 1024 + 1) 0⟩) ⟨true, []⟩).1.status = 400 ∧
    (upload_image id ⟨2026, 10, 12, 0, 0, 0⟩ "abcdef12"
      (some ⟨"a.jpg", List.replicate (10 * 1024 * 1024 + 1) 0⟩) ⟨true, []⟩).2 = ⟨true, []⟩ ∧
    ¬ ((upload_image id ⟨2026, 10, 12, 0, 0, 0⟩ "abcdef12"
      (some ⟨"a.jpg", List.replicate (10 * 1024 * 1024) 0⟩) ⟨true, []⟩).1.status = 400) := by
  have hbig := upload_image_400_iff id ⟨2026, 10, 12, 0, 0, 0⟩ "abcdef12"
    (some ⟨"a.jpg", List.replicate (10 * 1024 * 1024 + 1) 0⟩) ⟨true, []⟩
  have hok := upload_image_400_iff id ⟨2026, 10, 12, 0, 0, 0⟩ "abcdef12"
    (some ⟨"a.jpg", List.replicate (10 * 1024 * 1024) 0⟩) ⟨true, []⟩
  have h400 : (upload_image id ⟨2026, 10, 12, 0, 0, 0⟩ "abcdef12"
      (some ⟨"a.jpg", List.replicate (10 * 1024 * 1024 + 1) 0⟩) ⟨true, []⟩).1.status = 400 := by
    refine hbig.1.mpr (Or.inr ?_)
    rw [List.length_replicate]
    omega
  refine ⟨h400, hbig.2 h400, ?_⟩
  intro hcon
  rcases hok.1.mp hcon with hbad | hbad
  · exact hbad (by decide)
  · rw [List.length_replicate] at hbad
    omega

lemma data_append (a b : String) : (a ++ b).data = a.data ++ b.data := rfl

lemma digitOf_isDigit (n : Nat) : (digitOf n).isDigit = true := by
  have h : ∀ k < 10, (Nat.digitChar k).isDigit = true := by decide
  exact h _ (Nat.mod_lt _ (by norm_num))

lemma matchesPattern_build (s : String) (d8 d6 h8 : List Char) (ext : String)
    (hdata : s.data = d8 ++ '_' :: (d6 ++ '_' :: (h8 ++ ext.data)))
    (l8 : d8.length = 8) (l6 : d6.length = 6) (lh : h8.length = 8)
    (hd8 : d8.all Char.isDigit = true) (hd6 : d6.all Char.isDigit = true)
    (hh : h8.all isHexLower = true) :
    matchesPattern s ext = true := by
  have e0 : s.data.take 8 = d8 := by rw [hdata]; exact List.take_left' l8
  have e1 : s.data.drop 8 = '_' :: (d6 ++ '_' :: (h8 ++ ext.data)) := by
    rw [hdata]; exact List.drop_left' l8
  have e2 : s.data.drop 9 = d6 ++ '_' :: (h8 ++ ext.data) := by
    rw [show (9 : Nat) = 8 + 1 from rfl, ← List.drop_drop, e1]
    rfl
  have e3 : (s.data.drop 9).take 6 = d6 := by rw [e2]; exact List.take_left' l6
  have e4 : s.data.drop 15 = '_' :: (h8 ++ ext.data) := by
    rw [show (15 : Nat) = 9 + 6 from rfl, ← List.drop_drop, e2]
    exact List.drop_left' l6
  have e5 : s.data.drop 16 = h8 ++ ext.data := by
    rw [show (16 : Nat) = 15 + 1 from rfl, ← List.drop_drop, e4]
    rfl
  have e6 : (s.data.drop 16).take 8 = h8 := by rw [e5]; exact List.take_left' lh
  have e7 : s.data.drop 24 = ext.data := by
    rw [show (24 : Nat) = 16 + 8 from rfl, ← List.drop_drop, e5]
    exact List.drop_left' lh
  have e8 : (s.data.drop 8).take 1 = ['_'] := by rw [e1]; rfl
  have e9 : (s.data.drop 15).take 1 = ['_'] := by rw [e4]; rfl
  have elen : s.data.length = 24 + ext.data.length := by
    rw [hdata]
    simp only [List.length_append, List.length_cons, l8, l6, lh]
    omega
  simp only [matchesPattern, e0, e3, e6, e7, e8, e9, hd8, hd6, hh, elen]
  simp

/-- C3 (intended behaviour; the source's success return statement at
line 125 is a Python SyntaxError, recorded with the claim).  A request
carrying a file whose lowercased extension is allow-listed and whose
size is at most 10 MiB is answered with a 200 response whose payload
holds success, message, generated filename, original filename, URL, byte
size and timestamp, and the generated filename matches
`{8digitDate}_{6digitTime}_{8charHex}{ext}`.  The hypotheses on `now`
and `uuid` record what `datetime.now()` (year rendered in four digits)
and `str(uuid.uuid4())` (at least eight leading lowercase-hex
characters) always deliver. -/
theorem upload_image_success (url : String → String) (now : DateTimeVal) (uuid : String)
    (f : UploadFile) (s : Store)
    (hext : lowerAscii (splitextExtension f.filename) ∈ allowed_extensions)
    (hsize : f.content.length ≤ 10 * 1024 * 1024)
    (_hY1 : 1000 ≤ now.year) (_hY2 : now.year ≤ 9999)
    (hu8 : 8 ≤ uuid.data.length) (huhex : (uuid.data.take 8).all isHexLower = true) :
    (upload_image url now uuid (some f) s).1 =
      ⟨200, some ⟨true, "Fichier téléversé avec succès",
        safe_filename_of now uuid (lowerAscii (splitextExtension f.filename)),
        f.filename,
        url (safe_filename_of now uuid (lowerAscii (splitextExtension f.filename))),
        f.content.length, strftime_Ymd_HMS now⟩, none⟩ ∧
    matchesPattern (safe_filename_of now uuid (lowerAscii (splitextExtension f.filename)))
      (lowerAscii (splitextExtension f.filename)) = true := by
  constructor
  · simp only [upload_image]
    rw [if_neg (not_not_intro hext), if_neg (not_lt.mpr hsize)]
  · apply matchesPattern_build _
      (pad4chars now.year ++ (pad2chars now.month ++ pad2chars now.day))
      (pad2chars now.hour ++ (pad2chars now.minute ++ pad2chars now.second))
      (uuid.data.take 8)
    · simp [safe_filename_of, strftime_Ymd_HMS, strTake8, data_append,
        show ("_" : String).data = ['_'] from rfl]
    · rfl
    · rfl
    · rw [List.length_take]
      omega
    · simp [pad4chars, pad2chars, digitOf_isDigit]
    · simp [pad2chars, digitOf_isDigit]
    · exact huhex

/-- Witness: the success-response claim applied to a concrete upload of
`photo.JPG` (one byte) with a concrete clock value and UUID string. -/
theorem upload_image_success_witness :
    matchesPattern
      (safe_filename_of ⟨2026, 10, 12, 9, 5, 3⟩ "123e4567-e89b-12d3-a456-426614174000"
        (lowerAscii (splitextExtension "photo.JPG")))
      (lowerAscii (splitextExtension "photo.JPG")) = true :=
  (upload_image_success id ⟨2026, 10, 12, 9, 5, 3⟩ "123e4567-e89b-12d3-a456-426614174000"
    ⟨"photo.JPG", [0]⟩ ⟨true, []⟩ (by decide) (by decide) (by decide) (by decide)
    (by decide) (by decide)).2

/-- C5.  No entry of the array returned by the listing service has a
name with the `thumbnails/` prefix: such keys are removed by the filter
before URL construction, association and sorting, and the surviving
(top-level) names are exactly the non-thumbnail keys of the store. -/
theorem list_images_no_thumbnail_entries (url : String → String) (s : Store) :
    (∀ e ∈ (list_images url s).images, pyStartsWith e.name "thumbnails/" = false) ∧
    (s.containerExists = true →
      ((list_images url s).images.map ImageInfo.name).Perm
        ((s.blobs.filter (fun b => !pyStartsWith b.name "thumbnails/")).map Blob.name)) := by
  constructor
  · intro e he
    simp only [list_images] at he
    split at he
    · simp only [list_images_array] at he
      have he2 : e ∈ list_images_entries url s :=
        (List.perm_insertionSort imageGE (list_images_entries url s)).mem_iff.mp he
      simp only [list_images_entries] at he2
      rcases List.mem_map.mp he2 with ⟨b, hb, hbe⟩
      rcases List.mem_filter.mp hb with ⟨_, hpred⟩
      have hname : e.name = b.name := by
        rw [← hbe]
        rfl
      rw [hname]
      simpa using hpred
    · simp at he
  · intro hc
    simp only [list_images, hc, if_pos]
    have hperm := (List.perm_insertionSort imageGE (list_images_entries url s)).map
      ImageInfo.name
    
    have hmap : (list_images_entries url s).map ImageInfo.name
        = (s.blobs.filter (fun b => !pyStartsWith b.name "thumbnails/")).map Blob.name := by
      unfold list_images_entries
      rw [List.map_map]
      rfl
    simpa [list_images_array, hmap] using hperm

/-- Store with a single stored original, for concrete instantiations. -/
def storeW : Store := ⟨true, [⟨"a.jpg", [], "image/jpeg", 1, none⟩]⟩

/-- Witness: the no-thumbnail-entry claim applied to a store holding one
original object. -/
theorem list_images_no_thumbnail_entries_witness :
    pyStartsWith (mkImageInfo id storeW ⟨"a.jpg", [], "image/jpeg", 1, none⟩).name
      "thumbnails/" = false :=
  (list_images_no_thumbnail_entries id storeW).1 _ (by decide)

/-- C6.  Every non-thumbnail blob yields exactly one listing entry; its
thumbnail field is the URL of `thumbnails/{name}` when that metadata
lookup succeeds and falls back to the original's own URL when the lookup
fails; and a failed lookup never fails the listing request — the
response is still a 200. -/
theorem list_images_thumbnail_assoc (url : String → String) (s : Store) (b : Blob)
    (hc : s.containerExists = true) (hb : b ∈ s.blobs)
    (hn : pyStartsWith b.name "thumbnails/" = false) :
    mkImageInfo url s b ∈ (list_images url s).images ∧
    (exceptIsOk (get_blob_properties s ("thumbnails/" ++ b.name)) = true →
      (mkImageInfo url s b).thumbnailUrl = url ("thumbnails/" ++ b.name)) ∧
    (exceptIsOk (get_blob_properties s ("thumbnails/" ++ b.name)) = false →
      (mkImageInfo url s b).thumbnailUrl = url b.name) ∧
    (list_images url s).status = 200 := by
  have himg : (list_images url s).images
      = List.insertionSort imageGE (list_images_entries url s) := by
    simp [list_images, hc, list_images_array]
  refine ⟨?_, ?_, ?_, ?_⟩
  · rw [himg]
    refine (List.perm_insertionSort imageGE (list_images_entries url s)).mem_iff.mpr ?_
    exact List.mem_map.mpr ⟨b, List.mem_filter.mpr ⟨hb, by simp [hn]⟩, rfl⟩
  · intro hok
    cases hgp : get_blob_properties s ("thumbnails/" ++ b.name) with
    | error msg =>
        rw [hgp] at hok
        simp [exceptIsOk] at hok
    | ok u => simp [mkImageInfo, hgp]
  · intro hfail
    cases hgp : get_blob_properties s ("thumbnails/" ++ b.name) with
    | error msg => simp [mkImageInfo, hgp]
    | ok u =>
        rw [hgp] at hfail
        simp [exceptIsOk] at hfail
  · simp [list_images, hc]

/-- Witness: the association claim applied to a store holding one
original object and no thumbnail, where the lookup fails and the entry
falls back to the original's URL. -/
theorem list_images_thumbnail_assoc_witness :
    (mkImageInfo id storeW ⟨"a.jpg", [], "image/jpeg", 1, none⟩).thumbnailUrl = id "a.jpg" :=
  (list_images_thumbnail_assoc id storeW ⟨"a.jpg", [], "image/jpeg", 1, none⟩
    rfl (by decide) (by decide)).2.2.1 (by decide)

lemma str_le_empty (t : String) (h : t ≤ "") : t = "" := by
  refine le_antisymm h ?_
  rw [String.le_iff_toList_le]
  exact List.nil_le

/-- C7.  The listing is sorted descending by the last-modified key:
(i) every returned array is pairwise ordered by descending sort key;
(ii) for three stored objects with timestamps T1 < T2 < T3 the returned
order is [T3, T2, T1]; (iii) an entry lacking a timestamp sorts with key
`""`, and every entry placed after it also has key `""` — it appears
last among entries with real (nonempty) timestamps. -/
theorem list_images_sorted_desc :
    (∀ (url : String → String) (s : Store),
      ((list_images url s).images).Pairwise imageGE) ∧
    (∀ (url : String → String) (sz1 sz2 sz3 : Nat) (t1 t2 t3 : String),
      t1 < t2 → t2 < t3 →
      (list_images url ⟨true,
        [⟨"a.jpg", [], "", sz1, some t1⟩, ⟨"b.jpg", [], "", sz2, some t2⟩,
         ⟨"c.jpg", [], "", sz3, some t3⟩]⟩).images =
      [⟨"c.jpg", url "c.jpg", url "c.jpg", sz3, some t3⟩,
       ⟨"b.jpg", url "b.jpg", url "b.jpg", sz2, some t2⟩,
       ⟨"a.jpg", url "a.jpg", url "a.jpg", sz1, some t1⟩]) ∧
    (∀ (url : String → String) (s : Store) (l1 l2 : List ImageInfo) (e : ImageInfo),
      (list_images url s).images = l1 ++ e :: l2 → e.lastModified = none →
      ∀ e2 ∈ l2, sortKey e2 = "") := by
  have hpair : ∀ (url : String → String) (s : Store),
      ((list_images url s).images).Pairwise imageGE := by
    intro url s
    by_cases hc : s.containerExists = true
    · have himg : (list_images url s).images
          = List.insertionSort imageGE (list_images_entries url s) := by
        simp [list_images, hc, list_images_array]
      rw [himg]
      exact List.sorted_insertionSort imageGE (list_images_entries url s)
    · have hc2 : s.containerExists = false := by simpa using hc
      simp [list_images, hc2]
  refine ⟨hpair, ?_, ?_⟩
  · intro url sz1 sz2 sz3 t1 t2 t3 h12 h23
    have n32 : ¬ (t3 ≤ t2) := not_le.mpr h23
    have n31 : ¬ (t3 ≤ t1) := not_le.mpr (lt_trans h12 h23)
    have n21 : ¬ (t2 ≤ t1) := not_le.mpr h12
    have f1 : pyStartsWith "a.jpg" "thumbnails/" = false := by decide
    have f2 : pyStartsWith "b.jpg" "thumbnails/" = false := by decide
    have f3 : pyStartsWith "c.jpg" "thumbnails/" = false := by decide
    simp [list_images, list_images_array, list_images_entries, mkImageInfo,
      get_blob_properties, List.insertionSort, List.orderedInsert, imageGE, sortKey,
      f1, f2, f3, n32, n31, n21]
  · intro url s l1 l2 e hsplit hnone e2 he2
    have hp := hpair url s
    rw [hsplit] at hp
    have hp2 : (e :: l2).Pairwise imageGE := (List.pairwise_append.mp hp).2.1
    have hrel := (List.pairwise_cons.mp hp2).1 e2 he2
    have hkey : sortKey e = "" := by simp [sortKey, hnone]
    refine str_le_empty _ ?_
    rw [← hkey]
    exact hrel

/-- Witness: the sorting claim applied to three concrete objects with
increasing ISO timestamps; the listing returns them newest first. -/
theorem list_images_sorted_desc_witness :
    (list_images id ⟨true,
      [⟨"a.jpg", [], "", 1, some "2024-01-01T00:00:00"⟩,
       ⟨"b.jpg", [], "", 2, some "2024-01-02T00:00:00"⟩,
       ⟨"c.jpg", [], "", 3, some "2024-01-03T00:00:00"⟩]⟩).images =
    [⟨"c.jpg", id "c.jpg", id "c.jpg", 3, some "2024-01-03T00:00:00"⟩,
     ⟨"b.jpg", id "b.jpg", id "b.jpg", 2, some "2024-01-02T00:00:00"⟩,
     ⟨"a.jpg", id "a.jpg", id "a.jpg", 1, some "2024-01-01T00:00:00"⟩] :=
  list_images_sorted_desc.2.1 id 1 2 3 "2024-01-01T00:00:00" "2024-01-02T00:00:00"
    "2024-01-03T00:00:00" (by rw [String.lt_iff_toList_lt]; decide)
    (by rw [String.lt_iff_toList_lt]; decide)
